import Mathlib

/-!
Verification development for the dual-modality command-argument resolution
engine of `tagless-assyst` (`assyst-core/src/command/arguments.rs` and
`assyst-core/src/command/flags.rs`), as a shallow embedding in Lean.

Conventions:
* Machine calls to external collaborators (HTTP user lookups, regex matches,
  page fetches, channel-history fetches, std numeric parsers) are oracle
  functions carried by an `Env` record; a `none`/error from a transport
  oracle maps to the High-severity transport error, as §7 of the spec fixes.
* `todo!()` (a Rust panic) is modelled by the `POut.panic` outcome.
* Cursor-mutating parsers are state-passing functions `σ → σ × POut α`.
-/

set_option autoImplicit false

namespace Assyst

/-- Severity of a parse failure: `low` means "this source did not apply, try
the next strategy"; `high` aborts the whole resolution. -/
inductive Severity where
  | low
  | high
deriving DecidableEq

/-- Sticker format, from `twilight_model::channel::message::sticker::StickerFormatType`. -/
inductive StickerFormatType where
  | png
  | apng
  | lottie
  | gif
deriving DecidableEq

/-- A message attachment; only its URL is relevant to the engine. -/
structure MAttachment where
  url : String
deriving DecidableEq

/-- An embed image or thumbnail, carrying a URL. -/
structure EmbedImage where
  url : String
deriving DecidableEq

/-- An embed video; its URL is optional in the platform model. -/
structure EmbedVideo where
  url : Option String
deriving DecidableEq

/-- A message embed, with the four fields inspected by `ImageUrl::embed`. -/
structure MEmbed where
  url : Option String
  image : Option EmbedImage
  thumbnail : Option EmbedImage
  video : Option EmbedVideo
deriving DecidableEq

/-- A message sticker, from `twilight_model` (`MessageSticker`). -/
structure MessageSticker where
  id : Nat
  format_type : StickerFormatType
deriving DecidableEq

/-- The parts of a platform message that the resolution strategies inspect. -/
structure MsgCore where
  attachments : List MAttachment
  sticker_items : List MessageSticker
  embeds : List MEmbed
  content : String
deriving DecidableEq

/-- The invoking message: a `MsgCore` plus an optional replied-to message. -/
structure Msg where
  core : MsgCore
  referenced_message : Option MsgCore
deriving DecidableEq

/-- A structured option payload, from
`twilight_model::...::CommandOptionValue` (the `number` payload is a `Rat`
surrogate for the `f64`; no claim inspects float semantics). -/
inductive CommandOptionValue where
  | integer (i : Int)
  | number (n : Rat)
  | str (s : String)
  | attachment (id : Nat)
  | other
deriving DecidableEq

/-- One structured option as delivered by an interaction command: a name and
a typed value (`CommandDataOption`). -/
structure CommandOptionData where
  name : String
  value : CommandOptionValue
deriving DecidableEq

/-- Modelled from the spec: the error taxonomy of §7 (`TagParseError` in
`assyst-core/src/command/errors.rs`, which is not among the provided
sources); constructors follow the variants used by `arguments.rs`. -/
inductive TagParseError where
  | NoMention
  | NoUrl
  | NoAttachment
  | NoReply
  | NoEmbed
  | NoEmoji
  | NoSticker
  | UnsupportedSticker (fmt : StickerFormatType)
  | NoImageFound
  | NoImageInHistory
  | MediaDownloadFail
  | MismatchedCommandOptionType (expected : String) (actual : CommandOptionValue)
  | ArgsExhausted
  | ParseIntError
  | ParseFloatError
  | TimeParseError
  | FlagsParseFailed (msg : String)
  | TransportError
deriving DecidableEq

/-- Modelled from the spec: the Severity Classifier (§3, §7;
`GetErrorSeverity` in `message_parser/error.rs` is not among the provided
sources). Low is exactly the absence-style kinds — `NoMention`, `NoUrl`,
`NoAttachment`, `NoReply`, `NoEmoji`, `NoSticker` by absence, `NoEmbed` —
plus "no more input" (§4.1/§4.2); every other kind is High. -/
def TagParseError.get_severity : TagParseError → Severity
  | .NoMention => .low
  | .NoUrl => .low
  | .NoAttachment => .low
  | .NoReply => .low
  | .NoEmbed => .low
  | .NoEmoji => .low
  | .NoSticker => .low
  | .ArgsExhausted => .low
  | _ => .high

/-- Outcome of running a parser: a value, a `TagParseError`, or a Rust panic
(`todo!()` / `unwrap` failure). -/
inductive POut (α : Type) where
  | ok (a : α)
  | err (e : TagParseError)
  | panic
deriving DecidableEq

/-- The Rust `?` operator on a state-passing parser result: continue on
`ok`, short-circuit errors and panics. -/
def pbind {σ α β : Type} (x : σ × POut α) (f : σ → α → σ × POut β) : σ × POut β :=
  match x with
  | (s, .ok a) => f s a
  | (s, .err e) => (s, .err e)
  | (s, .panic) => (s, .panic)

/-! ## Flag decoder (`assyst-core/src/command/flags.rs`) -/

/-- Per-flag arity, from `flags.rs` (`FlagType`). -/
inductive FlagType where
  | WithValue
  | NoValue
deriving DecidableEq

/-- The allow-list (`ValidFlags = HashMap<&str, FlagType>`), as an
association list with distinct keys supplied by each caller. -/
def ValidFlags := List (String × FlagType)

/-- `HashMap::get` on the allow-list. -/
def lookupFlag (valid : ValidFlags) (k : String) : Option FlagType :=
  (valid.find? (fun p => p.1 == k)).map (fun p => p.2)

/-- Rust `str::starts_with`, over the character list (kernel-reducible
version of `String.startsWith`). -/
def strStartsWith (s pat : String) : Bool :=
  pat.toList.isPrefixOf s.toList

/-- Rust's byte-slice `&arg[2..]` on an ascii flag token (kernel-reducible
version of `String.drop`). -/
def strDrop (s : String) (n : Nat) : String :=
  String.mk (s.toList.drop n)

/-- The hard failures raised by `flags_from_str` via `bail!`/`context`. -/
inductive FlagError where
  | Unrecognised (flag : String)
  | ExpectsValue (flag : String)
  | UnexpectedValue (flag : String)
deriving DecidableEq

/-- `HashMap::insert` on the entries map, modelled as replace-or-append on
an association list. -/
def insertEntry : List (String × Option String) → String → Option String → List (String × Option String)
  | [], k, v => [(k, v)]
  | (k', v') :: rest, k, v =>
    if k' == k then (k, v) :: rest else (k', v') :: insertEntry rest k v

/-- The single left-to-right pass of `flags_from_str` over the token list,
with the loop state (`current_flag`, `entries`) made explicit. The final
(`[]`) case is the function's trailing "flag still pending" handling. -/
def flagsLoop (valid : ValidFlags) :
    List String → Option String → List (String × Option String) →
    Except FlagError (List (String × Option String))
  | [], cur, entries =>
    match cur with
    | some c =>
      match lookupFlag valid c with
      | none => .error (.Unrecognised c)
      | some .WithValue => .error (.ExpectsValue c)
      | some .NoValue => .ok (insertEntry entries c none)
    | none => .ok entries
  | arg :: rest, cur, entries =>
    if strStartsWith arg "--" ∧ arg.length > 2 then
      match cur with
      | some c =>
        match lookupFlag valid c with
        | none => .error (.Unrecognised c)
        | some .NoValue => flagsLoop valid rest none (insertEntry entries c none)
        | some .WithValue => .error (.ExpectsValue c)
      | none => flagsLoop valid rest (some (strDrop arg 2)) entries
    else
      match cur with
      | some c =>
        match lookupFlag valid c with
        | none => .error (.Unrecognised c)
        | some .WithValue => flagsLoop valid rest none (insertEntry entries c (some arg))
        | some .NoValue => .error (.UnexpectedValue c)
      | none => flagsLoop valid rest none entries

/-- `flags_from_str` after `split_ascii_whitespace`: decode a token list
against an allow-list. -/
def flags_from_tokens (valid : ValidFlags) (args : List String) :
    Except FlagError (List (String × Option String)) :=
  flagsLoop valid args none []

/-- Equality of decode results is decidable (used to evaluate the decoder at
concrete inputs). -/
instance instDecEqExcept {ε α : Type} [DecidableEq ε] [DecidableEq α] : DecidableEq (Except ε α)
  | .ok a, .ok b =>
    if h : a = b then .isTrue (h ▸ rfl) else .isFalse (fun hh => h (Except.ok.inj hh))
  | .ok _, .error _ => .isFalse Except.noConfusion
  | .error _, .ok _ => .isFalse Except.noConfusion
  | .error a, .error b =>
    if h : a = b then .isTrue (h ▸ rfl) else .isFalse (fun hh => h (Except.error.inj hh))

/-- An ascii whitespace character (the class Rust's
`split_ascii_whitespace` splits on). -/
def isAsciiWs (ch : Char) : Bool :=
  ch == ' ' || ch == '\t' || ch == '\n' || ch == '\r' || ch == '\x0c'

/-- Character-list worker for `split_ascii_whitespace`; `cur` holds the
current segment reversed. -/
def splitWsList : List Char → List Char → List String
  | [], cur => if cur.isEmpty then [] else [String.mk cur.reverse]
  | ch :: rest, cur =>
    if isAsciiWs ch then
      if cur.isEmpty then splitWsList rest []
      else String.mk cur.reverse :: splitWsList rest []
    else splitWsList rest (ch :: cur)

/-- Rust `str::split_ascii_whitespace`: non-empty maximal runs of
non-whitespace characters, in order. -/
def splitAsciiWhitespace (s : String) : List String :=
  splitWsList s.toList []

/-- `flags_from_str(input, valid_flags)` from `flags.rs`. -/
def flags_from_str (input : String) (valid : ValidFlags) :
    Except FlagError (List (String × Option String)) :=
  flags_from_tokens valid (splitAsciiWhitespace input)

/-! ## Cursors and parse contexts -/

/-- Modelled from the spec: the Token Cursor (§4.1, §9) — the `ParseCtxt`
word cursor of `assyst-core/src/command/mod.rs`, which is not among the
provided sources. The backing sequence is the whitespace-split word list of
the command body and the position is a plain index. -/
structure TokenCursor where
  words : List String
  pos : Nat
deriving DecidableEq

/-- Modelled from the spec: `next_word()` (§4.1) — yields the next
whitespace-delimited token, advancing the position; fails Low ("no more
input") when exhausted. -/
def TokenCursor.next_word (c : TokenCursor) : TokenCursor × POut String :=
  match c.words[c.pos]? with
  | some w => ({ c with pos := c.pos + 1 }, .ok w)
  | none => (c, .err .ArgsExhausted)

/-- Modelled from the spec: `rest()` (§4.1) — the remaining unconsumed text
as a single value, advancing the position to the end; fails when already
exhausted. -/
def TokenCursor.rest (c : TokenCursor) : TokenCursor × POut String :=
  if c.pos < c.words.length then
    ({ c with pos := c.words.length }, .ok (String.intercalate " " (c.words.drop c.pos)))
  else
    (c, .err .ArgsExhausted)

/-- Modelled from the spec: the Option Cursor (§4.2) — an ordered sequence
of typed options with a read index. -/
structure OptionCursor where
  opts : List CommandOptionData
  pos : Nat
deriving DecidableEq

/-- Modelled from the spec: `next_option()` (§4.2) — the next (name, typed
value) pair in order; fails Low when exhausted. -/
def OptionCursor.next_option (c : OptionCursor) : OptionCursor × POut CommandOptionData :=
  match c.opts[c.pos]? with
  | some o => ({ c with pos := c.pos + 1 }, .ok o)
  | none => (c, .err .ArgsExhausted)

/-- The external collaborators of §6 plus the std textual parsers, as
oracles. A `none` from a transport-backed oracle stands for the underlying
IO/transport failure, which §7 classifies as High. -/
structure Env where
  idFromMention : String → Option Nat
  userFetch : Nat → Option String
  isUrl : String → Bool
  emojiGlyphLookup : String → Option String
  emojiFetch : String → Option String
  channelMessages : Option (List MsgCore)
  pageFetch : String → Option String
  tenorFind : String → Option String
  parseU64 : String → Option Nat
  parseF64 : String → Option Rat
  parseF32 : String → Option Rat
  parseToMillis : String → Option Nat

/-- The raw-message parse context (`RawMessageParseCtxt`): the token cursor
plus the invoking message. The source unwraps `data.message`, so the
message is always present here. -/
structure RawCtxt where
  cursor : TokenCursor
  message : Msg
deriving DecidableEq

/-- `ctxt.next_word()` lifted to the raw parse context. -/
def RawCtxt.next_word (c : RawCtxt) : RawCtxt × POut String :=
  match c.cursor.next_word with
  | (cur, r) => ({ c with cursor := cur }, r)

/-- `ctxt.rest()` lifted to the raw parse context. -/
def RawCtxt.rest (c : RawCtxt) : RawCtxt × POut String :=
  match c.cursor.rest with
  | (cur, r) => ({ c with cursor := cur }, r)

/-- The interaction-command parse context (`InteractionCommandParseCtxt`):
the option cursor. -/
structure IntCtxt where
  cursor : OptionCursor
deriving DecidableEq

/-- `ctxt.next_option()` lifted to the interaction parse context. -/
def IntCtxt.next_option (c : IntCtxt) : IntCtxt × POut CommandOptionData :=
  match c.cursor.next_option with
  | (cur, r) => ({ c with cursor := cur }, r)

/-- Modelled from the spec: the `commit_if_ok!` macro (checkpoint/rewind,
§4.1 and §4.4; its definition in `assyst-core/src/command/mod.rs` is not
among the provided sources): run the parser speculatively, commit the
context only on success and restore the checkpoint on failure. -/
def commit_if_ok {σ α : Type} (p : σ → σ × POut α) (c : σ) : σ × POut α :=
  match p c with
  | (c', .ok a) => (c', .ok a)
  | (_, .err e) => (c, .err e)
  | (_, .panic) => (c, .panic)

/-! ## `ImageUrl` resolution strategies (`arguments.rs`) -/

/-- `pub struct ImageUrl(pub String)`. -/
structure ImageUrl where
  url : String
deriving DecidableEq

/-- `ImageUrl::from_mention_raw_message`: consume a word, interpret it as a
user mention, and resolve the user's avatar URL over HTTP. -/
def ImageUrl.from_mention_raw_message (env : Env) (c : RawCtxt) : RawCtxt × POut ImageUrl :=
  pbind c.next_word fun c word =>
    match env.idFromMention word with
    | none => (c, .err .NoMention)
    | some user_id =>
      if user_id == 0 then (c, .err .NoMention)
      else
        match env.userFetch user_id with
        | some avatar => (c, .ok ⟨avatar⟩)
        | none => (c, .err .TransportError)

/-- `ImageUrl::from_mention_command_option`: the same, from a string-typed
structured option; a non-string payload is a High type mismatch. -/
def ImageUrl.from_mention_command_option (env : Env) (c : IntCtxt) : IntCtxt × POut ImageUrl :=
  pbind c.next_option fun c word =>
    match word.value with
    | .str option =>
      (match env.idFromMention option with
       | none => (c, .err .NoMention)
       | some user_id =>
         if user_id == 0 then (c, .err .NoMention)
         else
           match env.userFetch user_id with
           | some avatar => (c, .ok ⟨avatar⟩)
           | none => (c, .err .TransportError))
    | v => (c, .err (.MismatchedCommandOptionType "String (mention aregument)" v))

/-- `ImageUrl::from_url_argument_raw_message`: the next word must match the
URL regex. -/
def ImageUrl.from_url_argument_raw_message (env : Env) (c : RawCtxt) : RawCtxt × POut ImageUrl :=
  pbind c.next_word fun c word =>
    if env.isUrl word then (c, .ok ⟨word⟩) else (c, .err .NoUrl)

/-- `ImageUrl::from_url_argument_command_option`: URL from a string-typed
structured option. -/
def ImageUrl.from_url_argument_command_option (env : Env) (c : IntCtxt) : IntCtxt × POut ImageUrl :=
  pbind c.next_option fun c word =>
    match word.value with
    | .str option =>
      if env.isUrl option then (c, .ok ⟨option⟩) else (c, .err .NoUrl)
    | v => (c, .err (.MismatchedCommandOptionType "String (url argument)" v))

/-- `ImageUrl::attachment`: the URL of the given attachment, or the absence
error. -/
def ImageUrl.attachment (attachment : Option MAttachment) : POut ImageUrl :=
  match attachment with
  | none => .err .NoAttachment
  | some att => .ok ⟨att.url⟩

/-- `ImageUrl::from_attachment_raw_message`: first attachment on the
invoking message. -/
def ImageUrl.from_attachment_raw_message (_env : Env) (c : RawCtxt) : RawCtxt × POut ImageUrl :=
  (c, ImageUrl.attachment c.message.core.attachments.head?)

/-- `ImageUrl::from_attachment_interaction_command`: the source hits
`todo!()` — a panic — when the next option's payload is an `Attachment`,
and a High type mismatch otherwise. -/
def ImageUrl.from_attachment_interaction_command (_env : Env) (c : IntCtxt) : IntCtxt × POut ImageUrl :=
  pbind c.next_option fun c word =>
    match word.value with
    | .attachment _ => (c, .panic)
    | v => (c, .err (.MismatchedCommandOptionType "Attachment" v))

/-- The tail of `ImageUrl::embed` after the tenor-URL check: image, then
thumbnail, then video URL, else the absence error. -/
def ImageUrl.embedAfterUrl (embed : MEmbed) : POut ImageUrl :=
  match embed.image with
  | some image => .ok ⟨image.url⟩
  | none =>
    match embed.thumbnail with
    | some thumbnail => .ok ⟨thumbnail.url⟩
    | none =>
      match embed.video with
      | some video =>
        (match video.url with
         | some url => .ok ⟨url⟩
         | none => .err .NoEmbed)
      | none => .err .NoEmbed

/-- `ImageUrl::embed`: tenor view links first, then image, thumbnail,
video URL, in the source's order. -/
def ImageUrl.embed (embed : Option MEmbed) : POut ImageUrl :=
  match embed with
  | none => .err .NoEmbed
  | some embed =>
    match embed.url with
    | some url =>
      if strStartsWith url "https://tenor.com/view/" then .ok ⟨url⟩
      else ImageUrl.embedAfterUrl embed
    | none => ImageUrl.embedAfterUrl embed

/-- `ImageUrl::sticker`: PNG stickers resolve to their CDN URL; any other
format is the High `UnsupportedSticker` failure; absence is Low. -/
def ImageUrl.sticker (sticker : Option MessageSticker) : POut ImageUrl :=
  match sticker with
  | none => .err .NoSticker
  | some sticker =>
    match sticker.format_type with
    | .png => .ok ⟨"https://cdn.discordapp.com/stickers/" ++ toString sticker.id ++ ".png"⟩
    | fmt => .err (.UnsupportedSticker fmt)

/-- `ImageUrl::emoji`: look the glyph up, normalise the codepoint, fetch the
vendor-image descriptor over HTTP. -/
def ImageUrl.emoji (env : Env) (word : String) : POut ImageUrl :=
  match env.emojiGlyphLookup word with
  | some cp =>
    let codepoint := ((cp.toLower).replace " " "-").replace "-fe0f" ""
    let emoji_url := "https://bignutty.gitlab.io/emojipedia-data/data/" ++ codepoint ++ ".json"
    (match env.emojiFetch emoji_url with
     | some twitter => .ok ⟨twitter⟩
     | none => .err .TransportError)
  | none => .err .NoEmoji

/-- The `handle!` macro of `from_reply` and the `combined_parsers` chains on
a plain outcome: return a success, return a High failure, otherwise fall
through to the continuation. -/
def handleP {α : Type} (v : POut α) (rest : POut α) : POut α :=
  match v with
  | .ok a => .ok a
  | .err e => if e.get_severity == .high then .err e else rest
  | .panic => .panic

/-- `ImageUrl::from_reply`: the replied-to message's first attachment, else
its sticker, embed or emoji content via `handle!`, else the Low `NoReply`. -/
def ImageUrl.from_reply (env : Env) (c : RawCtxt) : RawCtxt × POut ImageUrl :=
  match c.message.referenced_message with
  | none => (c, .err .NoReply)
  | some reply =>
    match reply.attachments.head? with
    | some attachment => (c, .ok ⟨attachment.url⟩)
    | none =>
      (c,
        handleP (ImageUrl.sticker reply.sticker_items.head?)
          (handleP (ImageUrl.embed reply.embeds.head?)
            (handleP (ImageUrl.emoji env reply.content)
              (.err .NoReply))))

/-- `ImageUrl::from_emoji_raw_message`: consume a word and resolve it as an
emoji glyph. -/
def ImageUrl.from_emoji_raw_message (env : Env) (c : RawCtxt) : RawCtxt × POut ImageUrl :=
  pbind c.next_word fun c word => (c, ImageUrl.emoji env word)

/-- `ImageUrl::from_emoji_command_option`: a string-typed option that must
match the URL regex before the emoji lookup, per the source. -/
def ImageUrl.from_emoji_command_option (env : Env) (c : IntCtxt) : IntCtxt × POut ImageUrl :=
  pbind c.next_option fun c word =>
    match word.value with
    | .str option =>
      if env.isUrl option then (c, ImageUrl.emoji env option) else (c, .err .NoUrl)
    | v => (c, .err (.MismatchedCommandOptionType "String (emoji argument)" v))

/-- `ImageUrl::from_sticker`: first sticker on the invoking message. -/
def ImageUrl.from_sticker (_env : Env) (c : RawCtxt) : RawCtxt × POut ImageUrl :=
  (c, ImageUrl.sticker c.message.core.sticker_items.head?)

/-- The message loop of `ImageUrl::from_channel_history`: for each message,
embed, then sticker (the source tries sticker twice), then attachment, with
the history `handle!` macro ignoring every error — High ones included — and
the terminal `NoImageInHistory` when the window is exhausted. -/
def ImageUrl.historyPick : List MsgCore → POut ImageUrl
  | [] => .err .NoImageInHistory
  | message :: rest =>
    match ImageUrl.embed message.embeds.head? with
    | .ok v => .ok v
    | _ =>
      match ImageUrl.sticker message.sticker_items.head? with
      | .ok v => .ok v
      | _ =>
        match ImageUrl.sticker message.sticker_items.head? with
        | .ok v => .ok v
        | _ =>
          match ImageUrl.attachment message.attachments.head? with
          | .ok v => .ok v
          | _ => ImageUrl.historyPick rest

/-- `ImageUrl::from_channel_history`: fetch the channel's recent messages
(newest first) and scan them with `historyPick`; a fetch failure is the High
transport error. -/
def ImageUrl.from_channel_history (env : Env) : POut ImageUrl :=
  match env.channelMessages with
  | some messages => ImageUrl.historyPick messages
  | none => .err .TransportError

/-! ## The resolution chain engine -/

/-- One named candidate strategy of a resolution chain, already wrapped the
way the source invokes it (`commit_if_ok!` for the cursor-consuming ones). -/
structure Strat (σ : Type) where
  name : String
  run : σ → σ × POut ImageUrl

/-- The `handle!`-macro chain of `combined_parsers` over a strategy list,
ending in the terminal `NoImageFound`; also records the names of the
strategies actually invoked, in order. -/
def runChain {σ : Type} : List (Strat σ) → σ → σ × POut ImageUrl × List String
  | [], c => (c, .err .NoImageFound, [])
  | s :: rest, c =>
    match s.run c with
    | (c', .ok r) => (c', .ok r, [s.name])
    | (c', .panic) => (c', .panic, [s.name])
    | (c', .err e) =>
      if e.get_severity == .high then (c', .err e, [s.name])
      else
        match runChain rest c' with
        | (c'', r, t) => (c'', r, s.name :: t)

/-- The token-cursor strategy list of `ImageUrl::parse_raw_message`'s
`combined_parsers`, in source order; the first six run under
`commit_if_ok!`, the channel-history scan does not touch the cursor. -/
def rawStrategies (env : Env) : List (Strat RawCtxt) :=
  [⟨"mention", commit_if_ok (ImageUrl.from_mention_raw_message env)⟩,
   ⟨"url", commit_if_ok (ImageUrl.from_url_argument_raw_message env)⟩,
   ⟨"attachment", commit_if_ok (ImageUrl.from_attachment_raw_message env)⟩,
   ⟨"reply", commit_if_ok (ImageUrl.from_reply env)⟩,
   ⟨"emoji", commit_if_ok (ImageUrl.from_emoji_raw_message env)⟩,
   ⟨"sticker", commit_if_ok (ImageUrl.from_sticker env)⟩,
   ⟨"channel_history", fun c => (c, ImageUrl.from_channel_history env)⟩]

/-- The option-cursor strategy list of `ImageUrl::parse_command_option`'s
`combined_parsers`, in source order. -/
def optionStrategies (env : Env) : List (Strat IntCtxt) :=
  [⟨"attachment", commit_if_ok (ImageUrl.from_attachment_interaction_command env)⟩,
   ⟨"mention", commit_if_ok (ImageUrl.from_mention_command_option env)⟩,
   ⟨"url", commit_if_ok (ImageUrl.from_url_argument_command_option env)⟩,
   ⟨"emoji", commit_if_ok (ImageUrl.from_emoji_command_option env)⟩,
   ⟨"channel_history", fun c => (c, ImageUrl.from_channel_history env)⟩]

/-- `combined_parsers` of `ImageUrl::parse_raw_message`. -/
def ImageUrl.combined_parsers_raw (env : Env) (c : RawCtxt) : RawCtxt × POut ImageUrl :=
  match runChain (rawStrategies env) c with
  | (c', r, _) => (c', r)

/-- `combined_parsers` of `ImageUrl::parse_command_option`. -/
def ImageUrl.combined_parsers_option (env : Env) (c : IntCtxt) : IntCtxt × POut ImageUrl :=
  match runChain (optionStrategies env) c with
  | (c', r, _) => (c', r)

/-- The tenor view-page normalisation shared verbatim by both
`ImageUrl::parse_*` functions: visit a `https://tenor.com/view` URL and
extract the first GIF link by regex; no match is the High
`MediaDownloadFail`; other URLs pass through unchanged. -/
def tenorNormalize (env : Env) (url : String) : POut String :=
  if strStartsWith url "https://tenor.com/view" then
    match env.pageFetch url with
    | some page =>
      (match env.tenorFind page with
       | some gif_url => .ok gif_url
       | none => .err .MediaDownloadFail)
    | none => .err .TransportError
  else .ok url

/-- `ImageUrl::parse_raw_message`: the token-cursor chain followed by the
tenor normalisation. -/
def ImageUrl.parse_raw_message (env : Env) (c : RawCtxt) : RawCtxt × POut ImageUrl :=
  pbind (ImageUrl.combined_parsers_raw env c) fun c u =>
    match tenorNormalize env u.url with
    | .ok url => (c, .ok ⟨url⟩)
    | .err e => (c, .err e)
    | .panic => (c, .panic)

/-- `ImageUrl::parse_command_option`: the option-cursor chain followed by
the tenor normalisation. -/
def ImageUrl.parse_command_option (env : Env) (c : IntCtxt) : IntCtxt × POut ImageUrl :=
  pbind (ImageUrl.combined_parsers_option env c) fun c u =>
    match tenorNormalize env u.url with
    | .ok url => (c, .ok ⟨url⟩)
    | .err e => (c, .err e)
    | .panic => (c, .panic)

/-! ## Primitive argument types and the `Option<T>` combinator -/

/-- A parser over the raw-message context. -/
def RawParser (α : Type) : Type := Env → RawCtxt → RawCtxt × POut α

/-- A parser over the interaction-command context. -/
def OptParser (α : Type) : Type := Env → IntCtxt → IntCtxt × POut α

/-- `u64::parse_raw_message`: next word through the std integer parser
(`ParseIntError` on failure). -/
def parse_raw_u64 : RawParser Nat := fun env c =>
  pbind c.next_word fun c word =>
    match env.parseU64 word with
    | some n => (c, .ok n)
    | none => (c, .err .ParseIntError)

/-- Rust `i64 as u64`: two's-complement reinterpretation. -/
def i64AsU64 (i : Int) : Nat := (i % (2 : Int) ^ 64).toNat

/-- `u64::parse_command_option`: an `Integer` payload, cast `as u64`;
anything else is the High type mismatch. -/
def parse_option_u64 : OptParser Nat := fun _env c =>
  pbind c.next_option fun c next =>
    match next.value with
    | .integer option => (c, .ok (i64AsU64 option))
    | v => (c, .err (.MismatchedCommandOptionType "u64" v))

/-- `f64::parse_raw_message`. -/
def parse_raw_f64 : RawParser Rat := fun env c =>
  pbind c.next_word fun c word =>
    match env.parseF64 word with
    | some n => (c, .ok n)
    | none => (c, .err .ParseFloatError)

/-- `f64::parse_command_option`: a `Number` payload or a High mismatch. -/
def parse_option_f64 : OptParser Rat := fun _env c =>
  pbind c.next_option fun c next =>
    match next.value with
    | .number option => (c, .ok option)
    | v => (c, .err (.MismatchedCommandOptionType "f64" v))

/-- `f32::parse_raw_message`. -/
def parse_raw_f32 : RawParser Rat := fun env c =>
  pbind c.next_word fun c word =>
    match env.parseF32 word with
    | some n => (c, .ok n)
    | none => (c, .err .ParseFloatError)

/-- `f32::parse_command_option`: a `Number` payload (cast `as f32`, an
identity on the surrogate) or a High mismatch. -/
def parse_option_f32 : OptParser Rat := fun _env c =>
  pbind c.next_option fun c next =>
    match next.value with
    | .number option => (c, .ok option)
    | v => (c, .err (.MismatchedCommandOptionType "f32" v))

/-- `pub struct Word(pub String)`. -/
structure Word where
  val : String
deriving DecidableEq

/-- `Word::parse_raw_message`: the next whitespace-delimited word. -/
def parse_raw_word : RawParser Word := fun _env c =>
  pbind c.next_word fun c word => (c, .ok ⟨word⟩)

/-- `Word::parse_command_option`: a `String` payload or a High mismatch. -/
def parse_option_word : OptParser Word := fun _env c =>
  pbind c.next_option fun c word =>
    match word.value with
    | .str option => (c, .ok ⟨option⟩)
    | v => (c, .err (.MismatchedCommandOptionType "String" v))

/-- `pub struct Rest(pub String)`. -/
structure Rest where
  val : String
deriving DecidableEq

/-- `Rest::parse_raw_message`: the rest of the input. -/
def parse_raw_rest : RawParser Rest := fun _env c =>
  pbind c.rest fun c rest => (c, .ok ⟨rest⟩)

/-- `Rest::parse_command_option`: treated the same as `Word`. -/
def parse_option_rest : OptParser Rest := fun _env c =>
  pbind c.next_option fun c word =>
    match word.value with
    | .str option => (c, .ok ⟨option⟩)
    | v => (c, .err (.MismatchedCommandOptionType "String (Rest)" v))

/-- `pub struct Time { millis: u64 }`. -/
structure Time where
  millis : Nat
deriving DecidableEq

/-- `Time::parse_raw_message`: next word through `parse_to_millis`. -/
def parse_raw_time : RawParser Time := fun env c =>
  pbind c.next_word fun c word =>
    match env.parseToMillis word with
    | some millis => (c, .ok ⟨millis⟩)
    | none => (c, .err .TimeParseError)

/-- `Time::parse_command_option`: a `String` payload through
`parse_to_millis`, or a High mismatch. -/
def parse_option_time : OptParser Time := fun env c =>
  pbind c.next_option fun c word =>
    match word.value with
    | .str option =>
      (match env.parseToMillis option with
       | some millis => (c, .ok ⟨millis⟩)
       | none => (c, .err .TimeParseError))
    | v => (c, .err (.MismatchedCommandOptionType "String (time)" v))

/-- `Option<T>::parse_raw_message`: run `T`'s parser; a success is `some`, a
High failure propagates, and any other failure produces `none` — with no
rewind, exactly as the source's `match` (its `TODO` note and all). -/
def optionParseRaw {α : Type} (p : RawParser α) : RawParser (Option α) := fun env c =>
  match p env c with
  | (c', .ok v) => (c', .ok (some v))
  | (c', .err e) => if e.get_severity == .high then (c', .err e) else (c', .ok none)
  | (c', .panic) => (c', .panic)

/-- `Option<T>::parse_command_option`: same shape over the option cursor. -/
def optionParseOpt {α : Type} (p : OptParser α) : OptParser (Option α) := fun env c =>
  match p env c with
  | (c', .ok v) => (c', .ok (some v))
  | (c', .err e) => if e.get_severity == .high then (c', .err e) else (c', .ok none)
  | (c', .panic) => (c', .panic)

/-- The `while let Some(value) = <Option<Word>>::parse_raw_message(ctxt)?`
loop of `Vec<Word>::parse_raw_message`, with its accumulator explicit. -/
def vecWordLoop (env : Env) (c : RawCtxt) (items : List Word) : RawCtxt × POut (List Word) :=
  match h : optionParseRaw parse_raw_word env c with
  | (c', .ok (some value)) => vecWordLoop env c' (items ++ [value])
  | (c', .ok none) => (c', .ok items)
  | (c', .err e) => (c', .err e)
  | (c', .panic) => (c', .panic)
termination_by c.cursor.words.length - c.cursor.pos
decreasing_by
  simp only [optionParseRaw, parse_raw_word, pbind, RawCtxt.next_word, TokenCursor.next_word] at h
  rcases hw : c.cursor.words[c.cursor.pos]? with _ | w
  · rw [hw] at h; simp [TagParseError.get_severity] at h
  · rw [hw] at h
    simp at h
    have hlt : c.cursor.pos < c.cursor.words.length := by
      have := List.getElem?_eq_some.mp hw
      exact this.1
    rw [← h.1]
    simp
    omega

/-- `Vec<Word>::parse_raw_message`. -/
def parse_raw_vec_word : RawParser (List Word) := fun env c => vecWordLoop env c []

/-- `Vec<Word>::parse_command_option`: one string-valued option, split on
ascii whitespace into one `Word` per segment. -/
def parse_option_vec_word : OptParser (List Word) := fun env c =>
  pbind (parse_option_word env c) fun c text =>
    (c, .ok ((splitAsciiWhitespace text.val).map (fun y => ⟨y⟩)))

/-! ## `as_command_option` schema builders -/

/-- A built `CommandOption` as produced by the twilight builders used in
`arguments.rs`: scalar kind, name, description and the `required` flag. -/
structure BuiltCommandOption where
  kind : String
  name : String
  description : String
  required : Option Bool
deriving DecidableEq

/-- `u64::as_command_option`. -/
def as_command_option_u64 (name : String) : BuiltCommandOption :=
  ⟨"integer", name, "integer option", some true⟩

/-- `f64::as_command_option`. -/
def as_command_option_f64 (name : String) : BuiltCommandOption :=
  ⟨"number", name, "number option", some true⟩

/-- `f32::as_command_option`. -/
def as_command_option_f32 (name : String) : BuiltCommandOption :=
  ⟨"number", name, "number option", some true⟩

/-- `Vec<Word>::as_command_option`. -/
def as_command_option_vec_word (name : String) : BuiltCommandOption :=
  ⟨"string", name, "text input", some true⟩

/-- `Time::as_command_option`. -/
def as_command_option_time (name : String) : BuiltCommandOption :=
  ⟨"string", name, "time input", some true⟩

/-- `Word::as_command_option`. -/
def as_command_option_word (name : String) : BuiltCommandOption :=
  ⟨"string", name, "word input", some true⟩

/-- `Rest::as_command_option`. -/
def as_command_option_rest (name : String) : BuiltCommandOption :=
  ⟨"string", name, "text input", some true⟩

/-- `ImageUrl::as_command_option`. -/
def as_command_option_image_url (name : String) : BuiltCommandOption :=
  ⟨"attachment", name, "attachment input", some true⟩

/-- `Image::as_command_option`. -/
def as_command_option_image (name : String) : BuiltCommandOption :=
  ⟨"attachment", name, "attachment input", some true⟩

/-- `Option<T>::as_command_option`: `T`'s option with
`option.required = Some(false)`. -/
def as_command_option_option (inner : String → BuiltCommandOption) (name : String) : BuiltCommandOption :=
  { inner name with required := some false }

/-! ## Concrete instances used by witnesses and counterexamples -/

/-- A successful outcome, as an `Option` (for stating first-match scans). -/
def POut.toOpt {α : Type} : POut α → Option α
  | .ok a => some a
  | .err _ => none
  | .panic => none

/-- A raw parser rewinds on Low failure: whenever it fails with a
Low-severity error, the context it returns is the one it was given. -/
def LowRewinds {α : Type} (p : RawParser α) : Prop :=
  ∀ env c c' e, p env c = (c', POut.err e) → e.get_severity = .low → c' = c

/-- A message with no attachments, stickers, embeds or reply. -/
def emptyMsg : Msg := ⟨⟨[], [], [], ""⟩, none⟩

/-- A baseline environment whose collaborators all report absence/failure. -/
def env0 : Env :=
  { idFromMention := fun _ => none
    userFetch := fun _ => none
    isUrl := fun _ => false
    emojiGlyphLookup := fun _ => none
    emojiFetch := fun _ => none
    channelMessages := none
    pageFetch := fun _ => none
    tenorFind := fun _ => none
    parseU64 := fun _ => none
    parseF64 := fun _ => none
    parseF32 := fun _ => none
    parseToMillis := fun _ => none }

/-- An environment that resolves the mention `<@5>` to an avatar URL. -/
def env1 : Env :=
  { env0 with
    idFromMention := fun s => if s == "<@5>" then some 5 else none
    userFetch := fun _ => some "https://cdn.example/avatar.png" }

/-- An environment where a tenor view link is the only URL, and its page
carries one GIF link. -/
def env8 : Env :=
  { env0 with
    isUrl := fun s => s == "https://tenor.com/view/x"
    pageFetch := fun _ => some "PAGE"
    tenorFind := fun p => if p == "PAGE" then some "https://media.tenor.com/g.gif" else none }

/-- A raw context whose only word is the mention `<@5>`. -/
def rc1 : RawCtxt := ⟨⟨["<@5>"], 0⟩, emptyMsg⟩

/-- A raw context whose only word is a tenor view URL. -/
def rc8 : RawCtxt := ⟨⟨["https://tenor.com/view/x"], 0⟩, emptyMsg⟩

/-- A raw context with no input words. -/
def rcEmpty : RawCtxt := ⟨⟨[], 0⟩, emptyMsg⟩

/-- An interaction context with no options. -/
def ic0 : IntCtxt := ⟨⟨[], 0⟩⟩

/-- An interaction context with one string option. -/
def ic2 : IntCtxt := ⟨⟨[⟨"opt", .str "hello"⟩], 0⟩⟩

/-- An interaction context whose first option is an attachment payload. -/
def ic6 : IntCtxt := ⟨⟨[⟨"image", .attachment 7⟩], 0⟩⟩

/-- A second interaction context carrying an attachment payload. -/
def ic6b : IntCtxt := ⟨⟨[⟨"img", .attachment 3⟩, ⟨"x", .str "y"⟩], 0⟩⟩

/-- An interaction context with one string option holding three words. -/
def ic9 : IntCtxt := ⟨⟨[⟨"words", .str "a b  c"⟩], 0⟩⟩

/-- The `DownloadFlags` allow-list: `quality` takes a value, `audio` is
value-less. -/
def dlFlags : ValidFlags := [("quality", .WithValue), ("audio", .NoValue)]

/-- An allow-list declaring only the value-less flag `audio`. -/
def audioOnly : ValidFlags := [("audio", .NoValue)]

/-- A toy strategy over `Nat` contexts that always fails Low. -/
def toyLow : Strat Nat := ⟨"toy", fun n => (n, .err .NoMention)⟩

/-- Follows the spec's words for the history scan's treatment of one
message: try embed, then sticker, then attachment, keeping only a success
(every error swallowed); to be compared with the source loop
`ImageUrl.historyPick`. -/
def historyProbeSpec (m : MsgCore) : Option ImageUrl :=
  ((ImageUrl.embed m.embeds.head?).toOpt).orElse (fun _ =>
    ((ImageUrl.sticker m.sticker_items.head?).toOpt).orElse (fun _ =>
      (ImageUrl.attachment m.attachments.head?).toOpt))

/-! ## Helper lemmas -/

/-- `commit_if_ok` restores the checkpointed context on failure. -/
theorem commit_if_ok_err {σ α : Type} (p : σ → σ × POut α) (c c' : σ) (e : TagParseError)
    (h : commit_if_ok p c = (c', POut.err e)) : c' = c := by
  unfold commit_if_ok at h
  rcases hp : p c with ⟨c₂, r⟩
  rw [hp] at h
  cases r <;> simp_all

/-- Every error escaping a `handle!` chain (`runChain`) is High severity:
Low failures are always swallowed by the fallthrough, and the terminal
`NoImageFound` is itself High. -/
theorem runChain_err_high {σ : Type} (strats : List (Strat σ)) (c : σ) :
    ∀ c' e t, runChain strats c = (c', POut.err e, t) → e.get_severity = .high := by
  induction strats generalizing c with
  | nil =>
    intro c' e t h
    simp only [runChain, Prod.mk.injEq, POut.err.injEq] at h
    obtain ⟨-, he, -⟩ := h
    rw [← he]
    rfl
  | cons s rest ih =>
    intro c' e t h
    simp only [runChain] at h
    rcases hr : s.run c with ⟨c₂, r⟩
    rw [hr] at h
    cases r with
    | ok a => simp at h
    | panic => simp at h
    | err e₂ =>
      by_cases hs : e₂.get_severity = Severity.high
      · simp [hs] at h
        obtain ⟨-, he, -⟩ := h
        exact he ▸ hs
      · have hb : (e₂.get_severity == Severity.high) = false := by
          cases hsev : e₂.get_severity <;> simp_all
        simp only [hb, Bool.false_eq_true, if_false] at h
        rcases hrec : runChain rest c₂ with ⟨c₃, r₃, t₃⟩
        rw [hrec] at h
        simp at h
        obtain ⟨-, hr₃, -⟩ := h
        exact ih c₂ c₃ e t₃ (by rw [hrec, hr₃])

/-- Skipping one Low-failing, rewinding strategy leaves the rest of the
chain to run at the same context, with the name recorded. -/
theorem runChain_skip_low {σ : Type} (s : Strat σ) (rest : List (Strat σ)) (c : σ)
    (e : TagParseError) (hrun : s.run c = (c, POut.err e)) (hsev : e.get_severity = .low) :
    runChain (s :: rest) c =
      ((runChain rest c).1, (runChain rest c).2.1, s.name :: (runChain rest c).2.2) := by
  simp only [runChain]
  rw [hrun]
  have hb : (e.get_severity == Severity.high) = false := by rw [hsev]; rfl
  simp only [hb, Bool.false_eq_true, if_false]

/-- `next_word` fails only by exhaustion, leaving the context unchanged. -/
theorem RawCtxt.next_word_err (c c' : RawCtxt) (e : TagParseError)
    (h : c.next_word = (c', POut.err e)) : c' = c ∧ e = .ArgsExhausted := by
  unfold RawCtxt.next_word TokenCursor.next_word at h
  cases hw : c.cursor.words[c.cursor.pos]? <;> rw [hw] at h <;> simp_all
  exact h.1.symm

/-- `rest` fails only by exhaustion, leaving the context unchanged. -/
theorem RawCtxt.rest_err (c c' : RawCtxt) (e : TagParseError)
    (h : c.rest = (c', POut.err e)) : c' = c ∧ e = .ArgsExhausted := by
  unfold RawCtxt.rest TokenCursor.rest at h
  by_cases hlt : c.cursor.pos < c.cursor.words.length <;> simp_all
  exact h.1.symm

/-- `next_option` on an exhausted option cursor fails Low in place. -/
theorem IntCtxt.next_option_exhausted (c : IntCtxt)
    (h : c.cursor.opts.length ≤ c.cursor.pos) :
    c.next_option = (c, POut.err .ArgsExhausted) := by
  unfold IntCtxt.next_option OptionCursor.next_option
  rw [List.getElem?_eq_none h]

/-- Every failure of the tenor-page normalisation is High severity. -/
theorem tenorNormalize_err_high (env : Env) (url : String) (e : TagParseError)
    (h : tenorNormalize env url = POut.err e) : e.get_severity = .high := by
  unfold tenorNormalize at h
  by_cases hs : strStartsWith url "https://tenor.com/view" = true
  · rw [if_pos hs] at h
    cases hp : env.pageFetch url with
    | none => simp [hp] at h; rw [← h]; rfl
    | some page =>
      cases hf : env.tenorFind page with
      | none => simp [hp, hf] at h; rw [← h]; rfl
      | some gif => simp [hp, hf] at h
  · rw [if_neg hs] at h
    simp_all

/-- Every failure of the full raw-message `ImageUrl` parse is High
severity: the chain swallows Low failures, `NoImageFound` is High, and both
tenor-step failures are High. -/
theorem imageurl_parse_raw_err_high (env : Env) (c c' : RawCtxt) (e : TagParseError)
    (h : ImageUrl.parse_raw_message env c = (c', POut.err e)) : e.get_severity = .high := by
  rcases hcp : ImageUrl.combined_parsers_raw env c with ⟨c₂, r⟩
  cases r with
  | ok u =>
    cases ht : tenorNormalize env u.url with
    | ok u₂ => simp [ImageUrl.parse_raw_message, pbind, hcp, ht] at h
    | err e₂ =>
      simp [ImageUrl.parse_raw_message, pbind, hcp, ht] at h
      obtain ⟨-, he⟩ := h
      exact he ▸ tenorNormalize_err_high env u.url e₂ ht
    | panic => simp [ImageUrl.parse_raw_message, pbind, hcp, ht] at h
  | err e₂ =>
    simp [ImageUrl.parse_raw_message, pbind, hcp] at h
    obtain ⟨-, he⟩ := h
    unfold ImageUrl.combined_parsers_raw at hcp
    rcases hrc : runChain (rawStrategies env) c with ⟨c₃, r₃, t₃⟩
    rw [hrc] at hcp
    simp at hcp
    obtain ⟨-, hr₃⟩ := hcp
    exact he ▸ runChain_err_high (rawStrategies env) c c₃ e₂ t₃ (by rw [hrc, hr₃])
  | panic => simp [ImageUrl.parse_raw_message, pbind, hcp] at h

/-- Closed form of the `Vec<Word>` raw-message loop: it consumes every
remaining word, in order, and never fails. -/
theorem vecWordLoop_closed (env : Env) :
    ∀ (n : Nat) (c : RawCtxt) (items : List Word),
    c.cursor.words.length - c.cursor.pos ≤ n →
    vecWordLoop env c items =
      ({ c with cursor := ⟨c.cursor.words, max c.cursor.pos c.cursor.words.length⟩ },
        POut.ok (items ++ (c.cursor.words.drop c.cursor.pos).map (fun w => ⟨w⟩))) := by
  intro n
  induction n with
  | zero =>
    intro c items hn
    have hle : c.cursor.words.length ≤ c.cursor.pos := by omega
    have hw : c.cursor.words[c.cursor.pos]? = none := List.getElem?_eq_none hle
    have hstep : optionParseRaw parse_raw_word env c = (c, POut.ok none) := by
      simp [optionParseRaw, parse_raw_word, pbind, RawCtxt.next_word, TokenCursor.next_word, hw,
        TagParseError.get_severity]
    rw [vecWordLoop, hstep]
    have hmax : max c.cursor.pos c.cursor.words.length = c.cursor.pos := Nat.max_eq_left hle
    have hdrop : c.cursor.words.drop c.cursor.pos = [] := List.drop_eq_nil_of_le hle
    simp [hmax, hdrop]
  | succ n ih =>
    intro c items hn
    cases hw : c.cursor.words[c.cursor.pos]? with
    | none =>
      have hle : c.cursor.words.length ≤ c.cursor.pos := by
        by_contra hlt
        rw [List.getElem?_eq_getElem (by omega)] at hw
        cases hw
      have hstep : optionParseRaw parse_raw_word env c = (c, POut.ok none) := by
        simp [optionParseRaw, parse_raw_word, pbind, RawCtxt.next_word, TokenCursor.next_word, hw,
          TagParseError.get_severity]
      rw [vecWordLoop, hstep]
      have hmax : max c.cursor.pos c.cursor.words.length = c.cursor.pos := Nat.max_eq_left hle
      have hdrop : c.cursor.words.drop c.cursor.pos = [] := List.drop_eq_nil_of_le hle
      simp [hmax, hdrop]
    | some w =>
      have hlt : c.cursor.pos < c.cursor.words.length := (List.getElem?_eq_some.mp hw).1
      have hstep : optionParseRaw parse_raw_word env c =
          ({ c with cursor := ⟨c.cursor.words, c.cursor.pos + 1⟩ }, POut.ok (some ⟨w⟩)) := by
        simp [optionParseRaw, parse_raw_word, pbind, RawCtxt.next_word, TokenCursor.next_word, hw]
      rw [vecWordLoop, hstep]
      have hrec := ih ({ c with cursor := ⟨c.cursor.words, c.cursor.pos + 1⟩ })
        (items ++ [⟨w⟩]) (by simp; omega)
      simp only [hrec]
      have hmax : max (c.cursor.pos + 1) c.cursor.words.length = max c.cursor.pos c.cursor.words.length := by
        omega
      have hdrop : c.cursor.words.drop c.cursor.pos = w :: c.cursor.words.drop (c.cursor.pos + 1) := by
        rw [List.drop_eq_getElem_cons hlt]
        rw [List.getElem?_eq_getElem hlt] at hw
        simp at hw
        rw [hw]
      simp [hmax, hdrop]

/-! ## Claim theorems -/

/-- C1: the candidate strategies of image-reference resolution are tried in
exactly the fixed priority order — token cursor: mention, URL, invoking
message attachment, reply, emoji, sticker, channel history; option cursor:
attachment payload, mention, URL, emoji, channel history — and the first
strategy to succeed determines the returned value, with no later strategy
invoked after a success (the invoked-strategy trace stops at the winner). -/
theorem claim1_strategy_priority_order :
    (∀ env : Env, (rawStrategies env).map Strat.name =
      ["mention", "url", "attachment", "reply", "emoji", "sticker", "channel_history"]) ∧
    (∀ env : Env, (optionStrategies env).map Strat.name =
      ["attachment", "mention", "url", "emoji", "channel_history"]) ∧
    (∀ (σ : Type) (strats : List (Strat σ)) (c c' : σ) (r : ImageUrl) (k : Nat)
      (hk : k < strats.length),
      (∀ i (hi : i < strats.length), i < k →
        ∃ e, e.get_severity = Severity.low ∧ (strats.get ⟨i, hi⟩).run c = (c, POut.err e)) →
      (strats.get ⟨k, hk⟩).run c = (c', POut.ok r) →
      runChain strats c = (c', POut.ok r, (strats.take (k + 1)).map Strat.name)) := by
  refine ⟨fun _ => rfl, fun _ => rfl, ?_⟩
  intro σ strats
  induction strats with
  | nil =>
    intro c c' r k hk
    exact absurd hk (by simp)
  | cons s rest ih =>
    intro c c' r k hk hlow hsucc
    cases k with
    | zero =>
      simp only [List.get] at hsucc
      simp only [runChain, hsucc, List.take, List.map]
    | succ k' =>
      obtain ⟨e, helow, hrun⟩ := hlow 0 (by simp) (Nat.succ_pos k')
      simp only [List.get] at hrun
      rw [runChain_skip_low s rest c e hrun helow]
      have hk' : k' < rest.length := Nat.lt_of_succ_lt_succ hk
      have hlow' : ∀ i (hi : i < rest.length), i < k' →
          ∃ e₂, e₂.get_severity = Severity.low ∧ (rest.get ⟨i, hi⟩).run c = (c, POut.err e₂) := by
        intro i hi hik
        have := hlow (i + 1) (Nat.succ_lt_succ hi) (Nat.succ_lt_succ hik)
        simpa only [List.get] using this
      have hsucc' : (rest.get ⟨k', hk'⟩).run c = (c', POut.ok r) := by
        simpa only [List.get] using hsucc
      rw [ih c c' r k' hk' hlow' hsucc']
      simp

/-- C1 witness: with one mention word `<@5>` and a resolving identity
collaborator, the raw chain commits the first (mention) strategy, returns
its avatar URL, and invokes nothing after it. -/
theorem claim1_strategy_priority_order_witness :
    runChain (rawStrategies env1) rc1 =
      (⟨⟨["<@5>"], 1⟩, emptyMsg⟩, POut.ok ⟨"https://cdn.example/avatar.png"⟩, ["mention"]) :=
  claim1_strategy_priority_order.2.2 RawCtxt (rawStrategies env1) rc1
    ⟨⟨["<@5>"], 1⟩, emptyMsg⟩ ⟨"https://cdn.example/avatar.png"⟩ 0 (by decide)
    (fun i _ hik => absurd hik (Nat.not_lt_zero i)) (by decide)

/-- C2: in the resolution chain, a Low-severity strategy failure rewinds and
proceeds to the next strategy; the first High-severity failure terminates
the chain immediately, propagating that error with no later strategy
invoked; and a chain whose strategies all fail Low produces the terminal
High `NoImageFound`. -/
theorem claim2_severity_fallthrough :
    (∀ (σ : Type) (s : Strat σ) (rest : List (Strat σ)) (c : σ) (e : TagParseError),
      s.run c = (c, POut.err e) → e.get_severity = Severity.low →
      runChain (s :: rest) c =
        ((runChain rest c).1, (runChain rest c).2.1, s.name :: (runChain rest c).2.2)) ∧
    (∀ (σ : Type) (strats : List (Strat σ)) (c : σ) (e : TagParseError) (k : Nat)
      (hk : k < strats.length),
      (∀ i (hi : i < strats.length), i < k →
        ∃ e₂, e₂.get_severity = Severity.low ∧ (strats.get ⟨i, hi⟩).run c = (c, POut.err e₂)) →
      (strats.get ⟨k, hk⟩).run c = (c, POut.err e) → e.get_severity = Severity.high →
      runChain strats c = (c, POut.err e, (strats.take (k + 1)).map Strat.name)) ∧
    (∀ (σ : Type) (strats : List (Strat σ)) (c : σ),
      (∀ s, s ∈ strats → ∃ e, e.get_severity = Severity.low ∧ s.run c = (c, POut.err e)) →
      runChain strats c = (c, POut.err .NoImageFound, strats.map Strat.name)) ∧
    TagParseError.NoImageFound.get_severity = Severity.high := by
  refine ⟨fun σ s rest c e h1 h2 => runChain_skip_low s rest c e h1 h2, ?_, ?_, rfl⟩
  · intro σ strats
    induction strats with
    | nil =>
      intro c e k hk
      exact absurd hk (by simp)
    | cons s rest ih =>
      intro c e k hk hlow hfail hhigh
      cases k with
      | zero =>
        simp only [List.get] at hfail
        have hb : (e.get_severity == Severity.high) = true := by rw [hhigh]; rfl
        simp only [runChain, hfail, hb, if_true, List.take, List.map]
      | succ k' =>
        obtain ⟨e₂, helow, hrun⟩ := hlow 0 (by simp) (Nat.succ_pos k')
        simp only [List.get] at hrun
        rw [runChain_skip_low s rest c e₂ hrun helow]
        have hk' : k' < rest.length := Nat.lt_of_succ_lt_succ hk
        have hlow' : ∀ i (hi : i < rest.length), i < k' →
            ∃ e₃, e₃.get_severity = Severity.low ∧ (rest.get ⟨i, hi⟩).run c = (c, POut.err e₃) := by
          intro i hi hik
          have := hlow (i + 1) (Nat.succ_lt_succ hi) (Nat.succ_lt_succ hik)
          simpa only [List.get] using this
        have hfail' : (rest.get ⟨k', hk'⟩).run c = (c, POut.err e) := by
          simpa only [List.get] using hfail
        rw [ih c e k' hk' hlow' hfail' hhigh]
        simp
  · intro σ strats
    induction strats with
    | nil =>
      intro c _
      simp [runChain]
    | cons s rest ih =>
      intro c hall
      obtain ⟨e, helow, hrun⟩ := hall s (List.mem_cons_self s rest)
      rw [runChain_skip_low s rest c e hrun helow]
      rw [ih c (fun s₂ hs₂ => hall s₂ (List.mem_cons_of_mem s hs₂))]
      simp

/-- C2 witness: a structured string option makes the first (attachment)
strategy fail High with a type mismatch, aborting the whole option chain at
once; and a toy all-Low chain ends in the terminal `NoImageFound`. -/
theorem claim2_severity_fallthrough_witness :
    runChain (optionStrategies env0) ic2 =
      (ic2, POut.err (.MismatchedCommandOptionType "Attachment" (.str "hello")), ["attachment"]) ∧
    runChain [toyLow] 0 = (0, POut.err .NoImageFound, ["toy"]) :=
  ⟨claim2_severity_fallthrough.2.1 IntCtxt (optionStrategies env0) ic2
      (.MismatchedCommandOptionType "Attachment" (.str "hello")) 0 (by decide)
      (fun i _ hik => absurd hik (Nat.not_lt_zero i)) (by decide) (by decide),
   claim2_severity_fallthrough.2.2.1 Nat [toyLow] 0 (by
      intro s hs
      rw [List.mem_singleton] at hs
      subst hs
      exact ⟨.NoMention, rfl, rfl⟩)⟩

/-- C3: for every text input, when `Option<T>`'s parse produces "absent"
(`Ok(None)` after a Low failure of `T`), the context afterwards equals the
context before the attempt, for every rewinding argument parser — and every
argument parser of the program rewinds on Low failure (their Low failures
never consume input); a High-severity failure from `T` propagates
unchanged, and the rewind property is preserved under `Option` nesting. -/
theorem claim3_optional_rewind :
    (∀ (α : Type) (p : RawParser α), LowRewinds p →
      ∀ env c c', optionParseRaw p env c = (c', POut.ok none) → c' = c) ∧
    (∀ (α : Type) (p : RawParser α) (env : Env) (c c' : RawCtxt) (e : TagParseError),
      p env c = (c', POut.err e) → e.get_severity = Severity.high →
      optionParseRaw p env c = (c', POut.err e)) ∧
    LowRewinds parse_raw_u64 ∧ LowRewinds parse_raw_f64 ∧ LowRewinds parse_raw_f32 ∧
    LowRewinds parse_raw_word ∧ LowRewinds parse_raw_rest ∧ LowRewinds parse_raw_time ∧
    LowRewinds parse_raw_vec_word ∧ LowRewinds ImageUrl.parse_raw_message ∧
    (∀ (α : Type) (p : RawParser α), LowRewinds p → LowRewinds (optionParseRaw p)) := by
  refine ⟨?abs, ?high, ?u64, ?f64, ?f32, ?word, ?rest, ?time, ?vec, ?img, ?closure⟩
  case abs =>
    intro α p hp env c c' h
    unfold optionParseRaw at h
    rcases hr : p env c with ⟨c₂, r⟩
    rw [hr] at h
    cases r with
    | ok v => simp at h
    | err e =>
      by_cases hs : e.get_severity = Severity.high
      · have hb : (e.get_severity == Severity.high) = true := by rw [hs]; rfl
        simp [hb] at h
      · have hl : e.get_severity = Severity.low := by
          cases hsev : e.get_severity <;> simp_all
        have hb : (e.get_severity == Severity.high) = false := by rw [hl]; rfl
        simp [hb] at h
        rw [← h]
        exact hp env c c₂ e hr hl
    | panic => simp at h
  case high =>
    intro α p env c c' e h hhigh
    unfold optionParseRaw
    rw [h]
    have hb : (e.get_severity == Severity.high) = true := by rw [hhigh]; rfl
    simp [hb]
  case u64 =>
    intro env c c' e h hl
    unfold parse_raw_u64 pbind at h
    rcases hw : c.next_word with ⟨c₂, r⟩
    rw [hw] at h
    cases r with
    | ok w =>
      cases hp : env.parseU64 w with
      | some n => simp [hp] at h
      | none =>
        simp [hp] at h
        rw [← h.2] at hl
        cases hl
    | err e₂ =>
      simp at h
      exact h.1.symm.trans (RawCtxt.next_word_err c c₂ e₂ hw).1
    | panic => simp at h
  case f64 =>
    intro env c c' e h hl
    unfold parse_raw_f64 pbind at h
    rcases hw : c.next_word with ⟨c₂, r⟩
    rw [hw] at h
    cases r with
    | ok w =>
      cases hp : env.parseF64 w with
      | some n => simp [hp] at h
      | none =>
        simp [hp] at h
        rw [← h.2] at hl
        cases hl
    | err e₂ =>
      simp at h
      exact h.1.symm.trans (RawCtxt.next_word_err c c₂ e₂ hw).1
    | panic => simp at h
  case f32 =>
    intro env c c' e h hl
    unfold parse_raw_f32 pbind at h
    rcases hw : c.next_word with ⟨c₂, r⟩
    rw [hw] at h
    cases r with
    | ok w =>
      cases hp : env.parseF32 w with
      | some n => simp [hp] at h
      | none =>
        simp [hp] at h
        rw [← h.2] at hl
        cases hl
    | err e₂ =>
      simp at h
      exact h.1.symm.trans (RawCtxt.next_word_err c c₂ e₂ hw).1
    | panic => simp at h
  case word =>
    intro env c c' e h _
    unfold parse_raw_word pbind at h
    rcases hw : c.next_word with ⟨c₂, r⟩
    rw [hw] at h
    cases r with
    | ok w => simp at h
    | err e₂ =>
      simp at h
      exact h.1.symm.trans (RawCtxt.next_word_err c c₂ e₂ hw).1
    | panic => simp at h
  case rest =>
    intro env c c' e h _
    unfold parse_raw_rest pbind at h
    rcases hw : c.rest with ⟨c₂, r⟩
    rw [hw] at h
    cases r with
    | ok w => simp at h
    | err e₂ =>
      simp at h
      exact h.1.symm.trans (RawCtxt.rest_err c c₂ e₂ hw).1
    | panic => simp at h
  case time =>
    intro env c c' e h hl
    unfold parse_raw_time pbind at h
    rcases hw : c.next_word with ⟨c₂, r⟩
    rw [hw] at h
    cases r with
    | ok w =>
      cases hp : env.parseToMillis w with
      | some n => simp [hp] at h
      | none =>
        simp [hp] at h
        rw [← h.2] at hl
        cases hl
    | err e₂ =>
      simp at h
      exact h.1.symm.trans (RawCtxt.next_word_err c c₂ e₂ hw).1
    | panic => simp at h
  case vec =>
    intro env c c' e h _
    unfold parse_raw_vec_word at h
    rw [vecWordLoop_closed env (c.cursor.words.length - c.cursor.pos) c [] (Nat.le_refl _)] at h
    simp at h
  case img =>
    intro env c c' e h hl
    have := imageurl_parse_raw_err_high env c c' e h
    rw [this] at hl
    cases hl
  case closure =>
    intro α p _ env c c' e h hl
    unfold optionParseRaw at h
    rcases hr : p env c with ⟨c₂, r⟩
    rw [hr] at h
    cases r with
    | ok v => simp at h
    | err e₂ =>
      by_cases hs : e₂.get_severity = Severity.high
      · have hb : (e₂.get_severity == Severity.high) = true := by rw [hs]; rfl
        simp [hb] at h
        rw [← h.2] at hl
        rw [hs] at hl
        cases hl
      · have hl₂ : e₂.get_severity = Severity.low := by
          cases hsev : e₂.get_severity <;> simp_all
        have hb : (e₂.get_severity == Severity.high) = false := by rw [hl₂]; rfl
        simp [hb] at h
    | panic => simp at h

/-- C3 witness: on empty input, `Option<u64>`'s parse returns absent with
the context exactly restored. -/
theorem claim3_optional_rewind_witness :
    (optionParseRaw parse_raw_u64 env0 rcEmpty).1 = rcEmpty :=
  claim3_optional_rewind.1 Nat parse_raw_u64 claim3_optional_rewind.2.2.1 env0 rcEmpty
    (optionParseRaw parse_raw_u64 env0 rcEmpty).1 (by decide)

/-- C4: the claim says that when a flag-name token arrives while a
value-less flag is pending, the pending flag is committed and the new name
becomes the pending flag. The code commits the pending flag but then
discards the new flag-name token entirely: on the allow-list
`{quality: WithValue, audio: NoValue}` and tokens `--audio --quality 480`,
decoding succeeds with only `audio` present — `--quality` is silently
dropped and `480` ignored, where the claim requires
`{audio: absent, quality: "480"}`. -/
theorem claim4_pending_flag_commit_eval :
    flags_from_tokens dlFlags ["--audio", "--quality", "480"] =
      Except.ok [("audio", none)] := by decide

/-- C5: the claim says every occurrence of a flag name outside the
allow-list is a hard "unrecognised flag" failure. Through the same dropped
token path, an unknown flag following a pending value-less flag is never
validated: on allow-list `{audio: NoValue}` and tokens `--audio --zzz`,
decoding succeeds, silently ignoring the unknown `--zzz`. -/
theorem claim5_unknown_flag_ignored_eval :
    flags_from_tokens audioOnly ["--audio", "--zzz"] =
      Except.ok [("audio", none)] := by decide

/-- C6 counterexample: the claim asserts `ImageUrl::parse_command_option`
returns normally whenever the next option carries an Attachment payload; in
fact the structured attachment strategy is `todo!()` and the call panics on
exactly that input. -/
theorem claim6_totality_counterexample :
    ImageUrl.parse_command_option env0 ic6 = (ic6, POut.panic) := by decide

/-- C6 amended: for every structured invocation whose next option carries an
Attachment payload, `ImageUrl::parse_command_option` panics (the strategy
body is an unimplemented `todo!()`) instead of returning a value or an
error. -/
theorem claim6_amended_attachment_panics (env : Env) (c c₂ : IntCtxt) (nm : String) (att : Nat)
    (h : c.next_option = (c₂, POut.ok ⟨nm, .attachment att⟩)) :
    ImageUrl.parse_command_option env c = (c, POut.panic) := by
  have hstrat : ImageUrl.from_attachment_interaction_command env c = (c₂, POut.panic) := by
    simp [ImageUrl.from_attachment_interaction_command, h, pbind]
  simp [ImageUrl.parse_command_option, ImageUrl.combined_parsers_option, optionStrategies,
    runChain, commit_if_ok, hstrat, pbind]

/-- C6 amended, witness: the panic at a concrete attachment-carrying
invocation. -/
theorem claim6_amended_attachment_panics_witness :
    ImageUrl.parse_command_option env0 ic6b = (ic6b, POut.panic) :=
  claim6_amended_attachment_panics env0 ic6b ⟨⟨[⟨"img", .attachment 3⟩, ⟨"x", .str "y"⟩], 1⟩⟩
    "img" 3 (by decide)

/-- C8: after any strategy of either chain succeeds, a resolved URL with the
known redirect-page ("view") prefix is normalised: the page is fetched and
the first direct-media link extracted by pattern match is returned instead;
no extracted link is the terminal High `MediaDownloadFail`; URLs without the
prefix are returned unchanged. -/
theorem claim8_tenor_normalization :
    (∀ (env : Env) (c c' : RawCtxt) (u : ImageUrl),
      ImageUrl.combined_parsers_raw env c = (c', POut.ok u) →
      ((strStartsWith u.url "https://tenor.com/view" = false →
        ImageUrl.parse_raw_message env c = (c', POut.ok u)) ∧
       (∀ page gif, strStartsWith u.url "https://tenor.com/view" = true →
        env.pageFetch u.url = some page → env.tenorFind page = some gif →
        ImageUrl.parse_raw_message env c = (c', POut.ok ⟨gif⟩)) ∧
       (∀ page, strStartsWith u.url "https://tenor.com/view" = true →
        env.pageFetch u.url = some page → env.tenorFind page = none →
        ImageUrl.parse_raw_message env c = (c', POut.err .MediaDownloadFail)))) ∧
    (∀ (env : Env) (c c' : IntCtxt) (u : ImageUrl),
      ImageUrl.combined_parsers_option env c = (c', POut.ok u) →
      ((strStartsWith u.url "https://tenor.com/view" = false →
        ImageUrl.parse_command_option env c = (c', POut.ok u)) ∧
       (∀ page gif, strStartsWith u.url "https://tenor.com/view" = true →
        env.pageFetch u.url = some page → env.tenorFind page = some gif →
        ImageUrl.parse_command_option env c = (c', POut.ok ⟨gif⟩)) ∧
       (∀ page, strStartsWith u.url "https://tenor.com/view" = true →
        env.pageFetch u.url = some page → env.tenorFind page = none →
        ImageUrl.parse_command_option env c = (c', POut.err .MediaDownloadFail)))) ∧
    TagParseError.MediaDownloadFail.get_severity = Severity.high := by
  refine ⟨?raw, ?opt, rfl⟩
  case raw =>
    intro env c c' u h
    refine ⟨?_, ?_, ?_⟩
    · intro hpre
      simp [ImageUrl.parse_raw_message, pbind, h, tenorNormalize, hpre]
    · intro page gif hpre hfetch hfind
      simp [ImageUrl.parse_raw_message, pbind, h, tenorNormalize, hpre, hfetch, hfind]
    · intro page hpre hfetch hfind
      simp [ImageUrl.parse_raw_message, pbind, h, tenorNormalize, hpre, hfetch, hfind]
  case opt =>
    intro env c c' u h
    refine ⟨?_, ?_, ?_⟩
    · intro hpre
      simp [ImageUrl.parse_command_option, pbind, h, tenorNormalize, hpre]
    · intro page gif hpre hfetch hfind
      simp [ImageUrl.parse_command_option, pbind, h, tenorNormalize, hpre, hfetch, hfind]
    · intro page hpre hfetch hfind
      simp [ImageUrl.parse_command_option, pbind, h, tenorNormalize, hpre, hfetch, hfind]

/-- C8 witness: a raw chain that resolves a tenor view link returns the
GIF link extracted from the fetched page, not the view link itself. -/
theorem claim8_tenor_normalization_witness :
    ImageUrl.parse_raw_message env8 rc8 =
      (⟨⟨["https://tenor.com/view/x"], 1⟩, emptyMsg⟩,
        POut.ok ⟨"https://media.tenor.com/g.gif"⟩) :=
  (claim8_tenor_normalization.1 env8 rc8 ⟨⟨["https://tenor.com/view/x"], 1⟩, emptyMsg⟩
      ⟨"https://tenor.com/view/x"⟩ (by decide)).2.1 "PAGE" "https://media.tenor.com/g.gif"
    (by decide) (by decide) (by decide)

/-- C9: the repeated-argument parser (`Vec<Word>`): on a text cursor it
repeatedly applies `Option<Word>`'s parse until absent, collecting the
remaining words in order (and never failing); on a structured cursor it
takes one string-valued option and splits it on whitespace into one element
per segment, in order, failing High on a non-string payload. -/
theorem claim9_repeated_collect :
    (∀ (env : Env) (c : RawCtxt),
      parse_raw_vec_word env c =
        ({ c with cursor := ⟨c.cursor.words, max c.cursor.pos c.cursor.words.length⟩ },
          POut.ok ((c.cursor.words.drop c.cursor.pos).map (fun w => ⟨w⟩)))) ∧
    (∀ (env : Env) (c c₂ : IntCtxt) (nm s : String),
      c.next_option = (c₂, POut.ok ⟨nm, .str s⟩) →
      parse_option_vec_word env c =
        (c₂, POut.ok ((splitAsciiWhitespace s).map (fun y => ⟨y⟩)))) ∧
    (∀ (env : Env) (c c₂ : IntCtxt) (nm : String) (v : CommandOptionValue),
      c.next_option = (c₂, POut.ok ⟨nm, v⟩) → (∀ s, v ≠ .str s) →
      parse_option_vec_word env c =
        (c₂, POut.err (.MismatchedCommandOptionType "String" v))) := by
  refine ⟨?raw, ?opt, ?mismatch⟩
  case raw =>
    intro env c
    exact vecWordLoop_closed env (c.cursor.words.length - c.cursor.pos) c [] (Nat.le_refl _)
  case opt =>
    intro env c c₂ nm s h
    simp [parse_option_vec_word, parse_option_word, pbind, h]
  case mismatch =>
    intro env c c₂ nm v h hv
    cases v with
    | str s => exact absurd rfl (hv s)
    | integer i => simp [parse_option_vec_word, parse_option_word, pbind, h]
    | number n => simp [parse_option_vec_word, parse_option_word, pbind, h]
    | attachment a => simp [parse_option_vec_word, parse_option_word, pbind, h]
    | other => simp [parse_option_vec_word, parse_option_word, pbind, h]

/-- C9 witness: one structured string option with three segments parses to
three words in order. -/
theorem claim9_repeated_collect_witness :
    parse_option_vec_word env0 ic9 =
      (⟨⟨[⟨"words", .str "a b  c"⟩], 1⟩⟩, POut.ok [⟨"a"⟩, ⟨"b"⟩, ⟨"c"⟩]) :=
  claim9_repeated_collect.2.1 env0 ic9 ⟨⟨[⟨"words", .str "a b  c"⟩], 1⟩⟩ "words" "a b  c"
    (by decide)

/-- C10: the structured-input schema marks `Optional<T>` non-required for
every inner builder, while every bare argument type of `arguments.rs` is
marked required; correspondingly, on a missing option every bare
option-consuming parser fails with the Low exhaustion error while
`Optional<T>` swallows it and succeeds with "absent". -/
theorem claim10_schema_roundtrip :
    (∀ (inner : String → BuiltCommandOption) (name : String),
      (as_command_option_option inner name).required = some false) ∧
    (∀ name : String,
      (as_command_option_u64 name).required = some true ∧
      (as_command_option_f64 name).required = some true ∧
      (as_command_option_f32 name).required = some true ∧
      (as_command_option_word name).required = some true ∧
      (as_command_option_rest name).required = some true ∧
      (as_command_option_time name).required = some true ∧
      (as_command_option_vec_word name).required = some true ∧
      (as_command_option_image_url name).required = some true ∧
      (as_command_option_image name).required = some true) ∧
    (∀ (env : Env) (c : IntCtxt), c.cursor.opts.length ≤ c.cursor.pos →
      parse_option_u64 env c = (c, POut.err .ArgsExhausted) ∧
      parse_option_f64 env c = (c, POut.err .ArgsExhausted) ∧
      parse_option_f32 env c = (c, POut.err .ArgsExhausted) ∧
      parse_option_word env c = (c, POut.err .ArgsExhausted) ∧
      parse_option_rest env c = (c, POut.err .ArgsExhausted) ∧
      parse_option_time env c = (c, POut.err .ArgsExhausted) ∧
      parse_option_vec_word env c = (c, POut.err .ArgsExhausted)) ∧
    (∀ (α : Type) (p : OptParser α) (env : Env) (c : IntCtxt),
      p env c = (c, POut.err .ArgsExhausted) →
      optionParseOpt p env c = (c, POut.ok none)) ∧
    TagParseError.ArgsExhausted.get_severity = Severity.low := by
  refine ⟨fun _ _ => rfl, fun _ => ⟨rfl, rfl, rfl, rfl, rfl, rfl, rfl, rfl, rfl⟩, ?miss, ?opt, rfl⟩
  case miss =>
    intro env c h
    have hn := IntCtxt.next_option_exhausted c h
    refine ⟨?_, ?_, ?_, ?_, ?_, ?_, ?_⟩ <;>
      simp [parse_option_u64, parse_option_f64, parse_option_f32, parse_option_word,
        parse_option_rest, parse_option_time, parse_option_vec_word, pbind, hn]
  case opt =>
    intro α p env c h
    unfold optionParseOpt
    rw [h]
    simp [TagParseError.get_severity]

/-- C10 witness: on an empty option cursor, bare `Word` fails with the Low
exhaustion error while `Option<Word>` returns absent. -/
theorem claim10_schema_roundtrip_witness :
    parse_option_word env0 ic0 = (ic0, POut.err .ArgsExhausted) ∧
    optionParseOpt parse_option_word env0 ic0 = (ic0, POut.ok none) :=
  ⟨(claim10_schema_roundtrip.2.2.1 env0 ic0 (by decide)).2.2.2.1,
   claim10_schema_roundtrip.2.2.2.1 Word parse_option_word env0 ic0
     ((claim10_schema_roundtrip.2.2.1 env0 ic0 (by decide)).2.2.2.1)⟩

/-- C7: the channel-history scan examines the fetched messages in order,
trying embed, then sticker, then attachment for each message, swallowing
every error (High ones included) for that message; it returns the first
success and fails with the terminal `NoImageInHistory` only when no message
yields anything. -/
theorem claim7_history_scan (ms : List MsgCore) :
    ImageUrl.historyPick ms =
      match ms.findSome? historyProbeSpec with
      | some v => POut.ok v
      | none => POut.err .NoImageInHistory := by
  induction ms with
  | nil => simp [ImageUrl.historyPick, List.findSome?]
  | cons m rest ih =>
    rw [List.findSome?_cons]
    cases hE : ImageUrl.embed m.embeds.head? with
    | ok v => simp [ImageUrl.historyPick, historyProbeSpec, hE, POut.toOpt, Option.orElse]
    | err e =>
      cases hS : ImageUrl.sticker m.sticker_items.head? with
      | ok v => simp [ImageUrl.historyPick, historyProbeSpec, hE, hS, POut.toOpt, Option.orElse]
      | err e₂ =>
        cases hA : ImageUrl.attachment m.attachments.head? with
        | ok v =>
          simp [ImageUrl.historyPick, historyProbeSpec, hE, hS, hA, POut.toOpt, Option.orElse]
        | err e₃ =>
          simp only [ImageUrl.historyPick, historyProbeSpec, hE, hS, hA, POut.toOpt, Option.orElse]
          rw [ih]
        | panic =>
          simp only [ImageUrl.historyPick, historyProbeSpec, hE, hS, hA, POut.toOpt, Option.orElse]
          rw [ih]
      | panic =>
        cases hA : ImageUrl.attachment m.attachments.head? with
        | ok v =>
          simp [ImageUrl.historyPick, historyProbeSpec, hE, hS, hA, POut.toOpt, Option.orElse]
        | err e₃ =>
          simp only [ImageUrl.historyPick, historyProbeSpec, hE, hS, hA, POut.toOpt, Option.orElse]
          rw [ih]
        | panic =>
          simp only [ImageUrl.historyPick, historyProbeSpec, hE, hS, hA, POut.toOpt, Option.orElse]
          rw [ih]
    | panic =>
      cases hS : ImageUrl.sticker m.sticker_items.head? with
      | ok v => simp [ImageUrl.historyPick, historyProbeSpec, hE, hS, POut.toOpt, Option.orElse]
      | err e₂ =>
        cases hA : ImageUrl.attachment m.attachments.head? with
        | ok v =>
          simp [ImageUrl.historyPick, historyProbeSpec, hE, hS, hA, POut.toOpt, Option.orElse]
        | err e₃ =>
          simp only [ImageUrl.historyPick, historyProbeSpec, hE, hS, hA, POut.toOpt, Option.orElse]
          rw [ih]
        | panic =>
          simp only [ImageUrl.historyPick, historyProbeSpec, hE, hS, hA, POut.toOpt, Option.orElse]
          rw [ih]
      | panic =>
        cases hA : ImageUrl.attachment m.attachments.head? with
        | ok v =>
          simp [ImageUrl.historyPick, historyProbeSpec, hE, hS, hA, POut.toOpt, Option.orElse]
        | err e₃ =>
          simp only [ImageUrl.historyPick, historyProbeSpec, hE, hS, hA, POut.toOpt, Option.orElse]
          rw [ih]
        | panic =>
          simp only [ImageUrl.historyPick, historyProbeSpec, hE, hS, hA, POut.toOpt, Option.orElse]
          rw [ih]

end Assyst
